import Mathlib

/-!
StartOffseter — verification of the core processing logic.

Shallow embedding of the processing core of `StartOffseter.py`:
the WAV header normalizer (`fix_wav_hex`), the BPM entry parser
(`parse_bpm_entry`), the beats-entry parsing and silence/transcode
planning in `process_file`, the manual-BPM end-to-end path of
`process_file_thread`, the output naming (`generate_output_filename`),
the signal conditioner (`prepare_audio`) and the tempo-estimation
error boundary (`calculate_bpm_robust`).

Python floats are embedded as exact rationals (`ℚ`); the special
values NaN/±inf that the conditioning pipeline can produce are
modelled explicitly by the `FVal` type.  All arithmetic appearing in
the settled claims is exact in binary floating point at the inputs
considered, so the rational embedding is faithful there.
-/

/-- A file's contents as a list of bytes.  `fix_wav_hex` opens the file
in `rb+` mode, seeks to offset 20, reads two bytes, and conditionally
overwrites them in place; we model the file as the byte list. -/
abbrev ByteFile := List (Fin 256)

/-- The little-endian unsigned value of the (up to two) bytes that
`f.read(2)` returns at offset 20: both bytes when the file has at least
22 bytes, one byte when it has exactly 21, and the empty read (value 0)
otherwise — exactly `int.from_bytes(format_id, byteorder='little')`. -/
def wavFormatTag (f : ByteFile) : ℕ :=
  match f[20]?, f[21]? with
  | some b0, some b1 => b0.val + 256 * b1.val
  | some b0, none => b0.val
  | none, _ => 0

/-- `fix_wav_hex` (StartOffseter.py lines 21-29): read the 2-byte
format tag at offset 20 as a little-endian unsigned integer; if it is
65534 (WAVE_FORMAT_EXTENSIBLE), seek back and write `b'\x01\x00'`,
i.e. set byte 20 to 0x01 and byte 21 to 0x00; otherwise leave the file
untouched. -/
def fix_wav_hex (f : ByteFile) : ByteFile :=
  if wavFormatTag f = 65534 then (f.set 20 1).set 21 0 else f

/-- The numeric value of a digit string, as `float(...)` computes it for
a string of ASCII digits (exact, since every such value is an integer). -/
def digitsVal (ds : List Char) : ℕ :=
  ds.foldl (fun n c => 10 * n + (c.toNat - 48)) 0

/-- Python `str.strip()`: drop whitespace from both ends. -/
def pyStrip (cs : List Char) : List Char :=
  ((cs.dropWhile Char.isWhitespace).reverse.dropWhile Char.isWhitespace).reverse

/-- Python `str.split(sep)` for a single-character separator: split at
every occurrence, keeping empty parts (`"".split('\n') = ['']`,
`"a\n".split('\n') = ['a', '']`). -/
def splitOnChar (sep : Char) (cs : List Char) : List (List Char) :=
  cs.foldr
    (fun x acc =>
      if x = sep then [] :: acc
      else
        match acc with
        | h :: t => (x :: h) :: t
        | [] => [[x]])
    [[]]

/-- The digit characters surviving `filter(str.isdigit, ...)` on the
stripped, upper-cased BPM entry text (StartOffseter.py line 130).
`Char.isDigit` models `str.isdigit` on ASCII text; a non-ASCII digit
character would make the subsequent `float` call raise, which lands in
the same 120-fallback branch. -/
def bpmDigits (s : String) : List Char :=
  ((pyStrip s.toList).map Char.toUpper).filter Char.isDigit

/-- `parse_bpm_entry` (StartOffseter.py lines 127-136): keep only the
digit characters of the entry text and parse them with `float`.
`float('')` raises `ValueError`, and a parsed value `≤ 0` raises
explicitly; both are caught and replaced by the 120 BPM fallback. -/
def parse_bpm_entry (s : String) : ℚ :=
  let ds := bpmDigits s
  if ds = [] then 120
  else if (digitsVal ds : ℚ) ≤ 0 then 120
  else (digitsVal ds : ℚ)

/-- One signed decimal numeral, as Python's `float(...)` accepts it:
an optional integer part, an optional single decimal point and an
optional fractional part, at least one digit overall ("1", "1.", ".5",
"3.25").  Exponent, `inf`/`nan` and underscore forms are outside the
entry texts considered by the claims. -/
def pyNumeral (cs : List Char) : Option ℚ :=
  let intp := cs.takeWhile (fun c => c ≠ '.')
  let rest := cs.dropWhile (fun c => c ≠ '.')
  match rest with
  | [] =>
    if intp ≠ [] ∧ intp.all Char.isDigit then some ((digitsVal intp : ℕ) : ℚ)
    else none
  | _ :: frac =>
    if frac.contains '.' then none
    else if (intp ≠ [] ∨ frac ≠ []) ∧ intp.all Char.isDigit ∧ frac.all Char.isDigit then
      some ((digitsVal intp : ℚ) + (digitsVal frac : ℚ) / (10 : ℚ) ^ frac.length)
    else none

/-- Python `float(text)` on a plain signed decimal numeral (surrounding
whitespace stripped, optional sign); `none` models the `ValueError` that
`float` raises on any other text. -/
def pyFloat (s : String) : Option ℚ :=
  match pyStrip s.toList with
  | '-' :: rest => (pyNumeral rest).map (fun q => -q)
  | '+' :: rest => pyNumeral rest
  | cs => pyNumeral cs

/-- The beats-entry block of `process_file` (StartOffseter.py lines
180-187): `float(beats_entry.get())`, with a `ValueError` raised on a
non-positive value; parse failure and non-positive value both fall back
to 1 beat.  The argument is the outcome of the `float` call. -/
def beats_of_entry (parsed : Option ℚ) : ℚ :=
  match parsed with
  | none => 1
  | some v => if v ≤ 0 then 1 else v

/-- Round to the nearest integer, ties to even — the rounding that
Python's fixed-precision `format` applies to an exactly representable
value. -/
def roundHalfEven (q : ℚ) : ℤ :=
  let fl := ⌊q⌋
  let fr := q - fl
  if fr < 1/2 then fl
  else if 1/2 < fr then fl + 1
  else if fl % 2 = 0 then fl else fl + 1

/-- Zero-pad a numeral string on the left to `k` characters. -/
def padZeros (k : ℕ) (s : String) : String :=
  String.mk (List.replicate (k - s.length) '0') ++ s

/-- Fixed-point rendering of a non-negative rational with `k` decimal
places. -/
def formatFixedNN (k : ℕ) (q : ℚ) : String :=
  let n := (roundHalfEven (q * (10 : ℚ) ^ k)).toNat
  let ip := n / 10 ^ k
  let fp := n % 10 ^ k
  toString ip ++ "." ++ padZeros k (toString fp)

/-- Python `f"{q:.kf}"` — fixed-point formatting with `k` decimal
places, used for the silence duration (`:.4f`) and the BPM display
(`:.2f`). -/
def formatFixed (k : ℕ) (q : ℚ) : String :=
  if q < 0 then "-" ++ formatFixedNN k (-q) else formatFixedNN k q

/-- The first two lines of the probe output:
`probe_result.stdout.split('\n')[:2]` (StartOffseter.py line 170). -/
def probeLines (s : String) : List (List Char) :=
  (splitOnChar '\n' s.toList).take 2

/-- The silence duration and the ffmpeg argument vector that
`process_file` assembles and runs. -/
structure TranscodePlan where
  silence : ℚ
  command : List String
deriving DecidableEq, Repr

/-- `process_file` (StartOffseter.py lines 161-227), up to the external
invocation: unpack the probed sample rate and channel count from the
first two lines of the `ffprobe` output (fewer than two lines makes the
tuple unpacking raise, which the enclosing `except` turns into a failed
operation with no transcode — modelled as `none`); re-parse the BPM
entry text; parse the beats entry; compute
`silence_duration = (60 / bpm) * beats`; abort (`none`) when either
probed value is empty after stripping; otherwise return the assembled
ffmpeg command together with the silence duration.  The probed values
are interpolated as strings, exactly as in the source, with no numeric
validation. -/
def process_file (probeStdout bpmText beatsText inputFile outputFile : String) :
    Option TranscodePlan :=
  match probeLines probeStdout with
  | [line1, line2] =>
    let sample_rate := String.mk (pyStrip line1)
    let channels := String.mk (pyStrip line2)
    let bpm_value := parse_bpm_entry bpmText
    let beat_duration := 60 / bpm_value
    let number_of_beats := beats_of_entry (pyFloat beatsText)
    let silence_duration := beat_duration * number_of_beats
    if sample_rate = "" ∨ channels = "" then none
    else some
      { silence := silence_duration
        command :=
          ["ffmpeg", "-f", "lavfi",
           "-t", formatFixed 4 silence_duration,
           "-i", "anullsrc=r=" ++ sample_rate ++ ":cl=" ++ channels,
           "-i", inputFile,
           "-filter_complex", "[0][1]concat=n=2:v=0:a=1[out]",
           "-map", "[out]",
           "-ar", sample_rate,
           "-ac", channels,
           "-c:a", "pcm_s24le",
           outputFile] }
  | _ => none

/-- The manual-BPM path of `process_file_thread` (StartOffseter.py
lines 38-59): parse the BPM entry once, rewrite the entry text to
`f"{bpm_value:.2f} BPM"` when the value is positive (or to `"120 BPM"`
otherwise), then run `process_file`, which re-reads the rewritten entry
text. -/
def process_file_thread_manual (bpmText0 beatsText probeStdout inputFile outputFile : String) :
    Option TranscodePlan :=
  let bpm_value := parse_bpm_entry bpmText0
  let bpmText1 := if 0 < bpm_value then formatFixed 2 bpm_value ++ " BPM" else "120 BPM"
  process_file probeStdout bpmText1 beatsText inputFile outputFile

/-- The metadata entry fields read by `generate_output_filename`. -/
structure MetaFields where
  key : String
  master_limit : String
  bpm_value : String
  bit_rate : String
  sample_rate : String
  dither : String
  dedicated_to : String
  track_type : String

/-- Python `input_file.rsplit('.', 1)[0]`: everything before the last
`'.'` when the string contains one, the whole string otherwise. -/
def rsplitDot1Head (s : String) : String :=
  let cs := s.toList
  if cs.contains '.' then
    String.mk (((cs.reverse.dropWhile (fun c => c ≠ '.')).drop 1).reverse)
  else s

/-- `generate_output_filename` (StartOffseter.py lines 138-159): with
renaming enabled, interpolate the metadata fields into the
pipe-delimited template; otherwise append the fixed suffix.  The
existence check only logs; the returned name is the same either way. -/
def generate_output_filename (rename : Bool) (m : MetaFields) (input_file : String) : String :=
  if rename then
    rsplitDot1Head input_file ++ " | " ++ m.track_type ++ " " ++ m.key ++ " " ++
      m.master_limit ++ " " ++ m.bpm_value ++ " " ++ m.bit_rate ++ " " ++
      m.sample_rate ++ " " ++ m.dither ++ " | " ++ m.dedicated_to ++ ".wav"
  else
    rsplitDot1Head input_file ++ " - Offseted.wav"

/-- An IEEE floating-point value as the conditioning pipeline observes
it: a finite value (embedded exactly as a rational), a signed infinity
(`inf true` is `+inf`), or NaN. -/
inductive FVal where
  | fin : ℚ → FVal
  | inf : Bool → FVal
  | nan : FVal
deriving DecidableEq, Repr

/-- `np.isfinite`. -/
def FVal.isFinite : FVal → Bool
  | .fin _ => true
  | _ => false

/-- `np.abs`. -/
def FVal.absF : FVal → FVal
  | .fin q => .fin |q|
  | .inf _ => .inf true
  | .nan => .nan

/-- IEEE addition. -/
def FVal.add : FVal → FVal → FVal
  | .nan, _ => .nan
  | _, .nan => .nan
  | .fin a, .fin b => .fin (a + b)
  | .fin _, .inf s => .inf s
  | .inf s, .fin _ => .inf s
  | .inf s, .inf t => if s = t then .inf s else .nan

/-- IEEE negation. -/
def FVal.negF : FVal → FVal
  | .fin q => .fin (-q)
  | .inf s => .inf (!s)
  | .nan => .nan

/-- IEEE subtraction. -/
def FVal.sub (x y : FVal) : FVal := FVal.add x (FVal.negF y)

/-- IEEE multiplication (`0 * inf = nan`). -/
def FVal.mul : FVal → FVal → FVal
  | .nan, _ => .nan
  | _, .nan => .nan
  | .fin a, .fin b => .fin (a * b)
  | .fin a, .inf s => if a = 0 then .nan else .inf (decide (0 < a) == s)
  | .inf s, .fin b => if b = 0 then .nan else .inf (s == decide (0 < b))
  | .inf s, .inf t => .inf (s == t)

/-- IEEE division (`0 / 0 = nan`, `x / 0 = ±inf` for `x ≠ 0`). -/
def FVal.div : FVal → FVal → FVal
  | .nan, _ => .nan
  | _, .nan => .nan
  | .fin a, .fin b =>
    if b = 0 then (if a = 0 then .nan else .inf (decide (0 < a))) else .fin (a / b)
  | .fin _, .inf _ => .fin 0
  | .inf s, .fin b => .inf (s == decide (0 ≤ b))
  | .inf _, .inf _ => .nan

/-- `np.minimum` (propagates NaN). -/
def FVal.minF : FVal → FVal → FVal
  | .nan, _ => .nan
  | _, .nan => .nan
  | .fin a, .fin b => .fin (min a b)
  | .fin a, .inf s => if s then .fin a else .inf false
  | .inf s, .fin b => if s then .fin b else .inf false
  | .inf s, .inf t => .inf (s && t)

/-- `np.maximum`-style pairwise maximum as used by `np.max` reduction
(propagates NaN). -/
def FVal.maxF : FVal → FVal → FVal
  | .nan, _ => .nan
  | _, .nan => .nan
  | .fin a, .fin b => .fin (max a b)
  | .fin a, .inf s => if s then .inf true else .fin a
  | .inf s, .fin b => if s then .inf true else .fin b
  | .inf s, .inf t => .inf (s || t)

/-- The NumPy comparison `x > 0` (false on NaN). -/
def FVal.gtZero : FVal → Bool
  | .fin q => decide (0 < q)
  | .inf s => s
  | .nan => false

/-- `np.nan_to_num(·, nan=0.0, posinf=0.0, neginf=0.0)`. -/
def FVal.nanToNum : FVal → FVal
  | .fin q => .fin q
  | _ => .fin 0

/-- NumPy `x ** (1.0 - ratio)` at the default `ratio = 4.0`, i.e. the
power `-3`: `0 ** -3 = +inf` (warning suppressed by `np.errstate`),
`(±inf) ** -3 = ±0`, finite `q ** -3 = q⁻³`. -/
def FVal.powNeg3 : FVal → FVal
  | .nan => .nan
  | .inf _ => .fin 0
  | .fin q => if q = 0 then .inf true else .fin (q ^ (-3 : ℤ))

/-- Dot product of a coefficient list against an (already reversed)
signal history, used by the `lfilter` difference equation; missing
history entries are the zero initial conditions and contribute
nothing. -/
def dotRev : List FVal → List FVal → FVal
  | c :: cs, v :: vs => FVal.add (FVal.mul c v) (dotRev cs vs)
  | _, _ => FVal.fin 0

/-- `scipy.signal.lfilter b a x` with zero initial conditions: the
standard IIR difference equation
`y n = (Σ_i b i * x (n-i) - Σ_{j≥1} a j * y (n-j)) / a 0`.
The filter coefficients are the output of the external `butter` design
routine (`butter_lowpass`, StartOffseter.py lines 61-65) and are taken
as parameters: finite reals with a nonzero leading denominator
coefficient. -/
def lfilter (b a : List FVal) (x : List FVal) : List FVal :=
  (x.foldl (fun prev _ =>
    let n := prev.length
    FVal.div
      (FVal.sub (dotRev b ((x.take (n + 1)).reverse)) (dotRev (a.drop 1) prev))
      (a.headD FVal.nan) :: prev) []).reverse

/-- `lowpass_filter` (StartOffseter.py lines 67-70): design the
Butterworth coefficients externally and run `lfilter`. -/
def lowpass_filter (b a : List FVal) (data : List FVal) : List FVal :=
  lfilter b a data

/-- `dynamic_range_compression` (StartOffseter.py lines 72-76) at the
default `threshold = 0.5`, `ratio = 4.0`:
`gain = minimum(1, where(|y| > 0, (|y| / 0.5) ** -3, 0))`, result
`y * gain`.  `np.where` evaluates both branches but selects the `0`
branch whenever `|y| > 0` is false (including NaN). -/
def dynamic_range_compression (y : List FVal) : List FVal :=
  y.map (fun v =>
    let gain := FVal.minF (FVal.fin 1)
      (if FVal.gtZero (FVal.absF v) then
        FVal.powNeg3 (FVal.div (FVal.absF v) (FVal.fin (1/2)))
      else FVal.fin 0)
    FVal.mul v gain)

/-- `np.max (np.abs y)`: `none` models the exception `np.max` raises on
an empty buffer. -/
def maxAbsList : List FVal → Option FVal
  | [] => none
  | v :: vs => some (vs.foldl (fun acc w => FVal.maxF acc (FVal.absF w)) (FVal.absF v))

/-- `prepare_audio` (StartOffseter.py lines 78-99) on a mono buffer
(`librosa.load` returns a 1-D buffer, so the stereo-averaging branch
is not taken): lowpass filter, dynamic range compression,
`nan_to_num`, drop any remaining non-finite samples, then divide every
sample by `np.max(np.abs(y))` — with no guard against a zero maximum.
`none` models an exception escaping to the caller (empty buffer at the
`np.max` reduction). -/
def prepare_audio (b a : List FVal) (y0 : List FVal) : Option (List FVal) :=
  let y1 := lowpass_filter b a y0
  let y2 := dynamic_range_compression y1
  let y3 := y2.map FVal.nanToNum
  let y4 := if y3.all FVal.isFinite then y3 else y3.filter (fun v => FVal.isFinite v)
  match maxAbsList y4 with
  | none => none
  | some m => some (y4.map (fun v => FVal.div v m))

/-- `calculate_bpm_robust` (StartOffseter.py lines 101-125): decode the
file (`librosa.load`, external — its outcome is the `loadRes`
argument), condition it with `prepare_audio`, then hand the conditioned
buffer to the external onset/beat-track estimator (`beatTrack`
argument, modelling `librosa.onset.onset_strength`,
`librosa.beat.beat_track` and the final `.item()` call; `Except.error`
is a raised exception, `Except.ok none` a `None` tempo).  Every failure
lands in the `except` clause and yields the 120 BPM fallback; a
non-positive tempo also yields 120. -/
def calculate_bpm_robust (b a : List FVal)
    (loadRes : Except String (List FVal))
    (beatTrack : List FVal → Except String (Option ℚ)) : ℚ :=
  match loadRes with
  | Except.error _ => 120
  | Except.ok y =>
    match prepare_audio b a y with
    | none => 120
    | some y2 =>
      match beatTrack y2 with
      | Except.error _ => 120
      | Except.ok none => 120
      | Except.ok (some tempo) => if 0 < tempo then tempo else 120

/-! ## Theorems -/

/-- C3: the header normalizer changes at most the two bytes at offset
20-21, and changes them (to the little-endian encoding of 1, bytes
`01 00`) exactly when the pre-image little-endian value read at offset
20 is 65534; for any other pre-image value the output bytes equal the
input bytes. -/
theorem c3_normalize_frame (f : ByteFile) :
    (wavFormatTag f = 65534 → fix_wav_hex f = (f.set 20 1).set 21 0) ∧
    (wavFormatTag f ≠ 65534 → fix_wav_hex f = f) ∧
    (∀ i : ℕ, i ≠ 20 → i ≠ 21 → (fix_wav_hex f)[i]? = f[i]?) := by
  refine ⟨fun h => by simp [fix_wav_hex, h], fun h => by simp [fix_wav_hex, h],
    fun i h20 h21 => ?_⟩
  by_cases h : wavFormatTag f = 65534
  · simp only [fix_wav_hex, h, if_true]
    rw [List.getElem?_set_ne (by omega), List.getElem?_set_ne (by omega)]
  · simp [fix_wav_hex, h]

/-- Witness for C3: a 22-byte file whose format tag is `FE FF` is
patched to `01 00`. -/
theorem c3_normalize_frame_witness :
    fix_wav_hex (List.replicate 20 (0 : Fin 256) ++ [254, 255]) =
      ((List.replicate 20 (0 : Fin 256) ++ [254, 255]).set 20 1).set 21 0 :=
  (c3_normalize_frame _).1 (by decide)

/-- If the format tag reads 65534, both bytes at offsets 20 and 21 are
present in the file. -/
theorem wavFormatTag_eq_fffe {f : ByteFile} (h : wavFormatTag f = 65534) :
    ∃ b0 b1 : Fin 256, f[20]? = some b0 ∧ f[21]? = some b1 := by
  unfold wavFormatTag at h
  rcases h20 : f[20]? with _ | b0 <;> rcases h21 : f[21]? with _ | b1 <;>
    rw [h20, h21] at h
  · exact absurd (show (0 : ℕ) = 65534 from h) (by decide)
  · exact absurd (show (0 : ℕ) = 65534 from h) (by decide)
  · exact absurd (show (b0 : ℕ) = 65534 from h) (by have := b0.isLt; omega)
  · exact ⟨b0, b1, rfl, rfl⟩

/-- C4: the header normalizer is idempotent — after one application the
format tag reads 1, so a second application changes nothing. -/
theorem c4_normalize_idempotent (f : ByteFile) :
    fix_wav_hex (fix_wav_hex f) = fix_wav_hex f := by
  by_cases h : wavFormatTag f = 65534
  · obtain ⟨b0, b1, h20, h21⟩ := wavFormatTag_eq_fffe h
    have hl20 : 20 < f.length := (List.getElem?_eq_some.mp h20).1
    have hl21 : 21 < f.length := (List.getElem?_eq_some.mp h21).1
    have hfix : fix_wav_hex f = (f.set 20 1).set 21 0 := by simp [fix_wav_hex, h]
    have htag : wavFormatTag ((f.set 20 1).set 21 0) = 1 := by
      unfold wavFormatTag
      rw [List.getElem?_set_ne (by omega),
        List.getElem?_set_eq_of_lt (1 : Fin 256) (by simpa using hl20),
        List.getElem?_set_eq_of_lt (0 : Fin 256) (by simpa [List.length_set] using hl21)]
      decide
    rw [hfix]
    simp [fix_wav_hex, htag]
  · simp [fix_wav_hex, h]

/-- C7: a BPM entry text with no digit characters, or whose
digit-concatenation parses to a value ≤ 0, resolves to the 120 BPM
fallback. -/
theorem c7_bpm_fallback (s : String)
    (h : bpmDigits s = [] ∨ digitsVal (bpmDigits s) ≤ 0) :
    parse_bpm_entry s = 120 := by
  rcases h with h | h
  · simp [parse_bpm_entry, h]
  · have h0 : digitsVal (bpmDigits s) = 0 := Nat.le_zero.mp h
    by_cases he : bpmDigits s = []
    · simp [parse_bpm_entry, he]
    · simp [parse_bpm_entry, he, h0]

/-- Witness for C7: a digit-free entry yields 120. -/
theorem c7_bpm_fallback_witness : parse_bpm_entry "NO TEMPO HERE" = 120 :=
  c7_bpm_fallback _ (Or.inl (by decide))

/-- C10: the BPM parser keeps only the digit characters of the entry
text; it returns the numeric value of the concatenated digits whenever
that value is positive, returns 120 exactly when the text has no digits
or all its digits are zero, and its result is always a positive
integer — never negative, fractional, or zero. -/
theorem c10_digit_concat (s : String) :
    (0 < digitsVal (bpmDigits s) → parse_bpm_entry s = (digitsVal (bpmDigits s) : ℚ)) ∧
    ((bpmDigits s = [] ∨ digitsVal (bpmDigits s) = 0) → parse_bpm_entry s = 120) ∧
    (∃ n : ℕ, 0 < n ∧ parse_bpm_entry s = (n : ℚ)) := by
  refine ⟨fun h => ?_, fun h => ?_, ?_⟩
  · have hne : bpmDigits s ≠ [] := by
      intro he
      rw [he] at h
      simp [digitsVal] at h
    have hle : ¬ ((digitsVal (bpmDigits s) : ℚ) ≤ 0) := by
      push_neg
      exact_mod_cast h
    simp [parse_bpm_entry, hne, hle]
  · rcases h with h | h
    · simp [parse_bpm_entry, h]
    · by_cases he : bpmDigits s = [] <;> simp [parse_bpm_entry, he, h]
  · by_cases he : bpmDigits s = []
    · exact ⟨120, by norm_num, by simp [parse_bpm_entry, he]⟩
    · by_cases h0 : digitsVal (bpmDigits s) = 0
      · exact ⟨120, by norm_num, by simp [parse_bpm_entry, he, h0]⟩
      · have hle : ¬ ((digitsVal (bpmDigits s) : ℚ) ≤ 0) := by
          push_neg
          exact_mod_cast Nat.pos_of_ne_zero h0
        exact ⟨digitsVal (bpmDigits s), Nat.pos_of_ne_zero h0,
          by simp [parse_bpm_entry, he, hle]⟩

/-- Witness for C10: "12.5" parses to 125, "-3" to 3, "128.00 BPM" to
12800. -/
theorem c10_digit_concat_witness :
    parse_bpm_entry "12.5" = 125 ∧ parse_bpm_entry "-3" = 3 ∧
      parse_bpm_entry "128.00 BPM" = 12800 :=
  ⟨((c10_digit_concat "12.5").1 (by decide)).trans (by decide),
   ((c10_digit_concat "-3").1 (by decide)).trans (by decide),
   ((c10_digit_concat "128.00 BPM").1 (by decide)).trans (by decide)⟩

/-- String concatenation is associative. -/
theorem str_append_assoc (x y z : String) : x ++ y ++ z = x ++ (y ++ z) := by
  cases x
  cases y
  cases z
  exact congrArg String.mk (List.append_assoc _ _ _)

/-- C9: with rename disabled the output path is the input base name
followed by " - Offseted.wav"; with rename enabled and the metadata
fields track type "MASTER", key "Cmin", limit "-0.3db", bpm
"120.00 BPM", bitrate "24Bits", samplerate "48Khz", dither
"Triangular", dedicated "LABEL", the output path is the pipe-delimited
template instantiation. -/
theorem c9_output_naming (input : String) (m : MetaFields) :
    generate_output_filename false m input =
      rsplitDot1Head input ++ " - Offseted.wav" ∧
    generate_output_filename true
        ⟨"Cmin", "-0.3db", "120.00 BPM", "24Bits", "48Khz", "Triangular", "LABEL", "MASTER"⟩
        input =
      rsplitDot1Head input ++
        " | MASTER Cmin -0.3db 120.00 BPM 24Bits 48Khz Triangular | LABEL.wav" := by
  constructor
  · rfl
  · show rsplitDot1Head input ++ " | " ++ "MASTER" ++ " " ++ "Cmin" ++ " " ++ "-0.3db" ++
      " " ++ "120.00 BPM" ++ " " ++ "24Bits" ++ " " ++ "48Khz" ++ " " ++ "Triangular" ++
      " | " ++ "LABEL" ++ ".wav" = _
    repeat rw [str_append_assoc]
    rfl

/-- C6: whenever the beats-entry text is non-numeric (the `float` call
fails) or parses to a value ≤ 0, the planner substitutes 1.0 as the
beat count; with bpm text "120BPM" (120 BPM) the planned silence
duration is then 0.5 seconds. -/
theorem c6_beats_fallback (t : String)
    (h : pyFloat t = none ∨ ∃ v, pyFloat t = some v ∧ v ≤ 0) :
    beats_of_entry (pyFloat t) = 1 ∧
    (process_file "44100\n2\n" "120BPM" t "in.wav" "out.wav").map TranscodePlan.silence
      = some (1/2) := by
  have hb : beats_of_entry (pyFloat t) = 1 := by
    rcases h with h | ⟨v, hv, hle⟩
    · rw [h]
      rfl
    · rw [hv]
      simp [beats_of_entry, hle]
  refine ⟨hb, ?_⟩
  have hp : probeLines "44100\n2\n" = ["44100".toList, "2".toList] := by decide
  have hbpm : parse_bpm_entry "120BPM" = 120 := by decide
  have hs1 : String.mk (pyStrip ("44100".toList)) = "44100" := by decide
  have hs2 : String.mk (pyStrip ("2".toList)) = "2" := by decide
  simp only [process_file, hp, hbpm, hb, hs1, hs2]
  rw [if_neg (by decide)]
  simp only [Option.map_some']
  norm_num

/-- Witness for C6: beats text "-3" parses to -3 ≤ 0 and is replaced by
1 beat, giving a 0.5 s silence at 120 BPM. -/
theorem c6_beats_fallback_witness :
    beats_of_entry (pyFloat "-3") = 1 ∧
    (process_file "44100\n2\n" "120BPM" "-3" "in.wav" "out.wav").map TranscodePlan.silence
      = some (1/2) :=
  c6_beats_fallback "-3" (Or.inr ⟨-3, by decide, by norm_num⟩)

/-- Counterexample to C8 as stated: a probe output whose sample-rate
and channel-count lines are the unparseable (but non-empty) strings
"abc" and "def" does not abort — the transcode command is still
assembled and invoked, with the garbage values interpolated into the
ffmpeg arguments. -/
theorem c8_unparsed_probe_transcodes :
    process_file "abc\ndef" "120BPM" "1" "in.wav" "out.wav" =
      some { silence := 1/2,
             command := ["ffmpeg", "-f", "lavfi", "-t", "0.5000", "-i",
               "anullsrc=r=abc:cl=def", "-i", "in.wav", "-filter_complex",
               "[0][1]concat=n=2:v=0:a=1[out]", "-map", "[out]", "-ar", "abc",
               "-ac", "def", "-c:a", "pcm_s24le", "out.wav"] } := by
  with_unfolding_all decide

/-- C8 (amended): the operation aborts with no transcode exactly in the
cases the code detects — the probe output has fewer than two lines
(the tuple unpacking raises and the error is reported), or either of
the first two lines is empty after stripping whitespace.  Non-empty
unparseable values are not detected. -/
theorem c8_probe_abort (probeStdout bpmText beatsText inF outF : String)
    (h : (probeLines probeStdout).length < 2 ∨
      ∃ l1 l2, probeLines probeStdout = [l1, l2] ∧ (pyStrip l1 = [] ∨ pyStrip l2 = [])) :
    process_file probeStdout bpmText beatsText inF outF = none := by
  rcases h with h | ⟨l1, l2, hp, he⟩
  · rcases hl : probeLines probeStdout with _ | ⟨x, _ | ⟨y, ys⟩⟩
    · simp [process_file, hl]
    · simp [process_file, hl]
    · rw [hl] at h
      simp only [List.length_cons] at h
      omega
  · have hmt : String.mk ([] : List Char) = "" := by decide
    rcases he with he | he
    · simp [process_file, hp, he, hmt]
    · simp [process_file, hp, he, hmt]

/-- Witness for C8 (amended): an empty probe output has a single
(empty) line, so the unpacking fails and no transcode is attempted. -/
theorem c8_probe_abort_witness :
    process_file "" "120BPM" "1" "in.wav" "out.wav" = none :=
  c8_probe_abort "" "120BPM" "1" "in.wav" "out.wav" (Or.inl (by decide))

/-- C1: end-to-end with manual BPM entry "128", beats "2" and a
44100 Hz stereo probe result, the code does NOT produce the claimed
0.9375 s silence: `process_file_thread` first rewrites the BPM field to
"128.00 BPM", and `process_file` re-parses that text's digit
concatenation as 12800 BPM, so the planned silence is
60/12800 × 2 = 3/320 = 0.009375 s and the command requests a
"0.0094"-second clip (the transcode structure — probed rate 44100,
2 channels, concat, 24-bit PCM — is as claimed, but the duration is
off by a factor of 100). -/
theorem c1_manual_bpm_end_to_end :
    process_file_thread_manual "128" "2" "44100\n2\n" "in.wav" "out.wav" =
      some { silence := 3/320,
             command := ["ffmpeg", "-f", "lavfi", "-t", "0.0094", "-i",
               "anullsrc=r=44100:cl=2", "-i", "in.wav", "-filter_complex",
               "[0][1]concat=n=2:v=0:a=1[out]", "-map", "[out]", "-ar", "44100",
               "-ac", "2", "-c:a", "pcm_s24le", "out.wav"] } ∧
    (3 : ℚ)/320 ≠ 60/128 * 2 := by
  constructor
  · with_unfolding_all decide
  · norm_num

/-- C5: the tempo estimator never propagates a failure: a decoding
error, a conditioning failure, and an estimation error all yield the
120 BPM fallback, and the returned tempo is always positive. -/
theorem c5_estimate_never_raises :
    (∀ b a beatTrack e, calculate_bpm_robust b a (Except.error e) beatTrack = 120) ∧
    (∀ b a y m,
      calculate_bpm_robust b a (Except.ok y) (fun _ => Except.error m) = 120) ∧
    (∀ b a loadRes beatTrack, 0 < calculate_bpm_robust b a loadRes beatTrack) := by
  refine ⟨fun b a beatTrack e => rfl, fun b a y m => ?_, fun b a loadRes beatTrack => ?_⟩
  · rcases hpa : prepare_audio b a y with _ | y2
    · simp [calculate_bpm_robust, hpa]
    · simp [calculate_bpm_robust, hpa]
  · rcases loadRes with e | y
    · norm_num [calculate_bpm_robust]

    · rcases hpa : prepare_audio b a y with _ | y2
      · norm_num [calculate_bpm_robust, hpa]
      · rcases hbt : beatTrack y2 with e2 | ot
        · norm_num [calculate_bpm_robust, hpa, hbt]
        · rcases ot with _ | tempo
          · norm_num [calculate_bpm_robust, hpa, hbt]
          · simp only [calculate_bpm_robust, hpa, hbt]
            split_ifs with ht
            · exact ht
            · norm_num

/-- A coefficient-against-empty-history dot product is zero (zero
initial conditions contribute nothing). -/
theorem dotRev_nil_right (cs : List FVal) : dotRev cs [] = FVal.fin 0 := by
  cases cs <;> rfl

/-- A finite coefficient list dotted against the single-sample history
`[0]` is zero. -/
theorem dotRev_fin_zero (cs : List FVal) (h : cs.all FVal.isFinite = true) :
    dotRev cs [FVal.fin 0] = FVal.fin 0 := by
  cases cs with
  | nil => rfl
  | cons c cs2 =>
    have hc : c.isFinite = true := by
      simp only [List.all_cons, Bool.and_eq_true] at h
      exact h.1
    rcases c with q | s | _
    · show FVal.add (FVal.mul (FVal.fin q) (FVal.fin 0)) (dotRev cs2 []) = _
      rw [dotRev_nil_right]
      simp [FVal.mul, FVal.add]
    · simp [FVal.isFinite] at hc
    · simp [FVal.isFinite] at hc

/-- C2: the conditioning function does NOT keep its output finite on an
all-zero buffer.  For any finite filter coefficients (with nonzero
leading denominator coefficient, as the Butterworth design guarantees),
the single-sample zero buffer passes the filter, the compression and
the `nan_to_num` cleanup unchanged, and the final normalization divides
0 by `np.max(np.abs(y)) = 0` with no guard, making every sample NaN —
non-finite, violating the claimed `[-1, 1]` bound. -/
theorem c2_condition_zero_buffer (b a : List FVal)
    (hb : b.all FVal.isFinite = true)
    (ha : ∃ q t, a = FVal.fin q :: t ∧ q ≠ 0) :
    prepare_audio b a [FVal.fin 0] = some [FVal.nan] := by
  obtain ⟨q, t, rfl, hq⟩ := ha
  have hstep : lfilter b (FVal.fin q :: t) [FVal.fin 0] =
      [FVal.div (FVal.sub (dotRev b [FVal.fin 0]) (dotRev t [])) (FVal.fin q)] := rfl
  have hl : lfilter b (FVal.fin q :: t) [FVal.fin 0] = [FVal.fin 0] := by
    rw [hstep, dotRev_fin_zero b hb, dotRev_nil_right]
    simp [FVal.sub, FVal.negF, FVal.add, FVal.div, hq]
  simp only [prepare_audio, lowpass_filter, hl]
  with_unfolding_all decide

/-- Witness for C2: concrete unit coefficients exhibit the NaN
output. -/
theorem c2_condition_zero_buffer_witness :
    prepare_audio [FVal.fin 1] [FVal.fin 1] [FVal.fin 0] = some [FVal.nan] :=
  c2_condition_zero_buffer [FVal.fin 1] [FVal.fin 1] (by decide)
    ⟨1, [], rfl, one_ne_zero⟩
